import Mathlib

/-!
Verification of the UUIDv7 → ASN.1 DER library (`rs-asn1der2uuid7`).

Shallow embedding of `src/lib.rs`: Rust machine integers (`u8`, `u16`,
`u64`, `u128`) are modelled as `Nat` with explicit `% 2^w` truncation at
every point where the Rust code can wrap or narrow (`as` casts, shifts
into a fixed-width container).  Fallible Rust operations (`TryFrom`,
constructors returning `Result`) are modelled with `Option` / `Except`.
-/

/-- Embedding of `UuidV7Seeds`: a 48-bit-range millisecond timestamp held
in a `u64` together with a 128-bit random seed. -/
structure UuidV7Seeds where
  unix_ts_ms : Nat
  random_bytes : Nat
deriving DecidableEq, Repr

/-- Embedding of `UuidV7Seeds::to_u128`.  Mirrors the Rust statement by
statement: AND with `0x0000_FFFF…FFFF`, OR in the shifted timestamp
(the `as u128` widening of the `u64` field is `% 2^64`; the `<< 80`
inside the `u128` container wraps, hence `% 2^128`), then clear/set the
version nibble (bits 76–79) and the variant bits (62–63). -/
def UuidV7Seeds.to_u128 (s : UuidV7Seeds) : Nat :=
  let uuid := s.random_bytes % 2^128
  let uuid := uuid &&& 0x0000FFFFFFFFFFFFFFFFFFFFFFFFFFFF
  let uuid := uuid ||| (((s.unix_ts_ms % 2^64) <<< 80) % 2^128)
  let uuid := uuid &&& 0xFFFFFFFFFFFF0FFFFFFFFFFFFFFFFFFF
  let uuid := uuid ||| (7 <<< 76)
  let uuid := uuid &&& 0xFFFFFFFFFFFFFFFF3FFFFFFFFFFFFFFF
  let uuid := uuid ||| (2 <<< 62)
  uuid

/-- Embedding of `UnverifiedUuidV7`, a `u128` wrapper with unvalidated
field accessors. -/
structure UnverifiedUuidV7 where
  val : Nat
deriving DecidableEq, Repr

/-- Embedding of `UnverifiedUuidV7::unix_ts_ms`: `(self.0 >> 80) as u64`. -/
def UnverifiedUuidV7.unix_ts_ms (u : UnverifiedUuidV7) : Nat :=
  (u.val >>> 80) % 2^64

/-- Embedding of `UnverifiedUuidV7::version`: `((self.0 >> 76) & 0x0F) as u8`. -/
def UnverifiedUuidV7.version (u : UnverifiedUuidV7) : Nat :=
  ((u.val >>> 76) &&& 0x0F) % 2^8

/-- Embedding of `UnverifiedUuidV7::rand_a`: `((self.0 >> 64) & 0x0FFF) as u16`. -/
def UnverifiedUuidV7.rand_a (u : UnverifiedUuidV7) : Nat :=
  ((u.val >>> 64) &&& 0x0FFF) % 2^16

/-- Embedding of `UnverifiedUuidV7::variant`: `((self.0 >> 62) & 0x03) as u8`. -/
def UnverifiedUuidV7.variant (u : UnverifiedUuidV7) : Nat :=
  ((u.val >>> 62) &&& 0x03) % 2^8

/-- Embedding of `UnverifiedUuidV7::rand_b`:
`(self.0 & 0x3FFF_FFFF_FFFF_FFFF) as u64`. -/
def UnverifiedUuidV7.rand_b (u : UnverifiedUuidV7) : Nat :=
  (u.val &&& 0x3FFFFFFFFFFFFFFF) % 2^64

/-- Embedding of the validated `UuidV7` wrapper. -/
structure UuidV7 where
  val : Nat
deriving DecidableEq, Repr

/-- Embedding of `UuidV7::as_u128`. -/
def UuidV7.as_u128 (u : UuidV7) : Nat := u.val

/-- Embedding of `UuidV7Error`. -/
inductive UuidV7Error where
  | InvalidVersion (actual : Nat)
  | InvalidVariant (actual : Nat)
deriving DecidableEq, Repr

/-- Embedding of `TryFrom<UnverifiedUuidV7> for UuidV7`: reject when the
version field is not 7 (reporting the version), else when the variant
field is not 2 (reporting the variant), else wrap the value unchanged. -/
def UuidV7.tryFromUnverified (u : UnverifiedUuidV7) : Except UuidV7Error UuidV7 :=
  let version := u.version
  if version ≠ 7 then .error (.InvalidVersion version)
  else
    let variant := u.variant
    if variant ≠ 2 then .error (.InvalidVariant variant)
    else .ok ⟨u.val⟩

/-- Embedding of `RawUuidV7` (fields in source declaration order, which
declares `rand_b` before `variant`). -/
structure RawUuidV7 where
  unix_ts_ms : Nat
  version : Nat
  rand_a : Nat
  rand_b : Nat
  variant : Nat
deriving DecidableEq, Repr

/-- Embedding of `From<UnverifiedUuidV7> for RawUuidV7`. -/
def RawUuidV7.fromUnverified (u : UnverifiedUuidV7) : RawUuidV7 :=
  { unix_ts_ms := u.unix_ts_ms
    version := u.version
    rand_a := u.rand_a
    variant := u.variant
    rand_b := u.rand_b }

/-- Big-endian bytes of a `u16` value (Rust `u16::to_be_bytes`). -/
def u16_to_be_bytes (v : Nat) : List Nat :=
  [(v >>> 8) % 256, v % 256]

/-- Big-endian bytes of a `u8` value (Rust `u8::to_be_bytes`). -/
def u8_to_be_bytes (v : Nat) : List Nat :=
  [v % 256]

/-- Big-endian bytes of a `u64` value (Rust `u64::to_be_bytes`). -/
def u64_to_be_bytes (v : Nat) : List Nat :=
  [(v >>> 56) % 256, (v >>> 48) % 256, (v >>> 40) % 256, (v >>> 32) % 256,
   (v >>> 24) % 256, (v >>> 16) % 256, (v >>> 8) % 256, v % 256]

/-- ASN.1 BIT STRING value: a byte buffer plus a count of unused
low-order bits in the final byte, and the resulting significant bit
length. -/
structure BitString where
  unused_bits : Nat
  bit_length : Nat
  bytes : List Nat
deriving DecidableEq, Repr

/-- Modelled from the spec: the bit-string constructor of the external
DER library (`der::asn1::BitString::new`, not part of this repository's
sources).  Per the spec's failure-mode description it rejects exactly the
structurally inconsistent combinations: an unused-bit count of 8 or
more, or a nonzero unused-bit count with an empty buffer.  Otherwise the
significant bit length is `8 * buffer length - unused bits`. -/
def BitString.new (unusedBits : Nat) (bytes : List Nat) : Option BitString :=
  if 8 ≤ unusedBits then none
  else if bytes.isEmpty ∧ unusedBits ≠ 0 then none
  else some ⟨unusedBits, 8 * bytes.length - unusedBits, bytes⟩

/-- Big-endian interpretation of a byte buffer as an unsigned integer. -/
def beBytesToNat (bytes : List Nat) : Nat :=
  bytes.foldl (fun acc b => acc * 256 + b % 256) 0

/-- Conceptual decode of a BIT STRING: the significant bits (all bits of
the buffer except the declared unused low-order bits of the final byte),
read as an unsigned integer. -/
def BitString.valueBits (bs : BitString) : Nat :=
  beBytesToNat bs.bytes >>> bs.unused_bits

/-- Conceptual decode of a BIT STRING's declared-unused trailing padding
bits, read as an unsigned integer. -/
def BitString.paddingBits (bs : BitString) : Nat :=
  beBytesToNat bs.bytes % 2^bs.unused_bits

/-- Embedding of `RawUuidV7Asn1` (fields in source declaration order). -/
structure RawUuidV7Asn1 where
  unix_ts_ms : Nat
  version : Nat
  rand_a : BitString
  variant : BitString
  rand_b : BitString
deriving DecidableEq, Repr

/-- Embedding of `TryFrom<RawUuidV7> for RawUuidV7Asn1`: build the three
bit strings from the big-endian bytes of `rand_a` (4 unused bits),
`variant` (6 unused bits) and `rand_b` (2 unused bits), each
short-circuiting on constructor failure. -/
def RawUuidV7Asn1.tryFromRaw (raw_uuid : RawUuidV7) : Option RawUuidV7Asn1 :=
  (BitString.new 4 (u16_to_be_bytes raw_uuid.rand_a)).bind fun ra =>
  (BitString.new 6 (u8_to_be_bytes raw_uuid.variant)).bind fun va =>
  (BitString.new 2 (u64_to_be_bytes raw_uuid.rand_b)).bind fun rb =>
  some { unix_ts_ms := raw_uuid.unix_ts_ms
         version := raw_uuid.version
         rand_a := ra
         variant := va
         rand_b := rb }

/-- Minimal big-endian byte representation of a natural number (empty for
zero). -/
def natBeBytes (n : Nat) : List Nat :=
  if h : n = 0 then []
  else natBeBytes (n / 256) ++ [n % 256]
decreasing_by exact Nat.div_lt_self (Nat.pos_of_ne_zero h) (by omega)

/-- Modelled from the spec: the external DER serializer's
definite-length encoding (short form below 128, two-byte and three-byte
long forms above; all lengths arising here fit the short form). -/
def encLen (n : Nat) : List Nat :=
  if n < 128 then [n]
  else if n < 256 then [0x81, n]
  else [0x82, (n >>> 8) % 256, n % 256]

/-- Modelled from the spec: the external DER serializer's encoding of an
unsigned INTEGER (tag `0x02`): minimal big-endian content bytes, with a
leading zero byte when the top bit of the first content byte is set. -/
def encUint (n : Nat) : List Nat :=
  let b := natBeBytes n
  let content :=
    match b with
    | [] => [0]
    | first :: _ => if 128 ≤ first then 0 :: b else b
  0x02 :: encLen content.length ++ content

/-- Modelled from the spec: the external DER serializer's encoding of a
BIT STRING (tag `0x03`): content is the unused-bit count byte followed by
the buffer. -/
def encBitString (bs : BitString) : List Nat :=
  0x03 :: encLen (1 + bs.bytes.length) ++ (bs.unused_bits :: bs.bytes)

/-- Modelled from the spec: the external DER serializer's encoding of a
SEQUENCE (tag `0x30`): the concatenation of the already-encoded fields,
in order, behind the tag and the body length. -/
def encSequence (fields : List (List Nat)) : List Nat :=
  let body := fields.foldr (fun f acc => f ++ acc) []
  0x30 :: encLen body.length ++ body

/-- Modelled from the spec: `RawUuidV7Asn1::to_der_bytes`, the derived
DER serialization of the SEQUENCE with its five fields in struct
declaration order (`unix_ts_ms`, `version`, `rand_a`, `variant`,
`rand_b`); `unix_ts_ms` and `version` as unsigned INTEGERs, the rest as
BIT STRINGs.  The serializer is deterministic and, for the fixed-width
buffers produced here, never fails, so it is modelled as a total
function. -/
def RawUuidV7Asn1.to_der_bytes (a : RawUuidV7Asn1) : List Nat :=
  encSequence
    [encUint a.unix_ts_ms, encUint a.version,
     encBitString a.rand_a, encBitString a.variant, encBitString a.rand_b]

/-- Full encode pipeline from a raw field record: project to the ASN.1
form, then serialize (mirrors `RawUuidV7Asn1::try_from` followed by
`to_der_bytes`). -/
def derOfRaw (r : RawUuidV7) : Option (List Nat) :=
  (RawUuidV7Asn1.tryFromRaw r).map RawUuidV7Asn1.to_der_bytes

/-! Helper lemmas: the accessors in division/modulus form. -/

theorem unv_unix_ts_ms_eq (v : Nat) (h : v < 2^128) :
    (UnverifiedUuidV7.mk v).unix_ts_ms = v / 2^80 := by
  have hlt : v / 2^80 < 2^64 := by
    have hv : v < 2^80 * 2^64 := lt_of_lt_of_le h (by norm_num)
    exact Nat.div_lt_of_lt_mul hv
  unfold UnverifiedUuidV7.unix_ts_ms
  rw [Nat.shiftRight_eq_div_pow]
  exact Nat.mod_eq_of_lt hlt

theorem unv_version_eq (v : Nat) :
    (UnverifiedUuidV7.mk v).version = v / 2^76 % 2^4 := by
  unfold UnverifiedUuidV7.version
  rw [show (0x0F : Nat) = 2^4 - 1 from by norm_num,
    Nat.and_pow_two_sub_one_eq_mod, Nat.shiftRight_eq_div_pow]
  exact Nat.mod_eq_of_lt
    (lt_of_lt_of_le (Nat.mod_lt _ (by norm_num)) (by norm_num))

theorem unv_rand_a_eq (v : Nat) :
    (UnverifiedUuidV7.mk v).rand_a = v / 2^64 % 2^12 := by
  unfold UnverifiedUuidV7.rand_a
  rw [show (0x0FFF : Nat) = 2^12 - 1 from by norm_num,
    Nat.and_pow_two_sub_one_eq_mod, Nat.shiftRight_eq_div_pow]
  exact Nat.mod_eq_of_lt
    (lt_of_lt_of_le (Nat.mod_lt _ (by norm_num)) (by norm_num))

theorem unv_variant_eq (v : Nat) :
    (UnverifiedUuidV7.mk v).variant = v / 2^62 % 2^2 := by
  unfold UnverifiedUuidV7.variant
  rw [show (0x03 : Nat) = 2^2 - 1 from by norm_num,
    Nat.and_pow_two_sub_one_eq_mod, Nat.shiftRight_eq_div_pow]
  exact Nat.mod_eq_of_lt
    (lt_of_lt_of_le (Nat.mod_lt _ (by norm_num)) (by norm_num))

theorem unv_rand_b_eq (v : Nat) :
    (UnverifiedUuidV7.mk v).rand_b = v % 2^62 := by
  unfold UnverifiedUuidV7.rand_b
  rw [show (0x3FFFFFFFFFFFFFFF : Nat) = 2^62 - 1 from by norm_num,
    Nat.and_pow_two_sub_one_eq_mod]
  exact Nat.mod_eq_of_lt
    (lt_of_lt_of_le (Nat.mod_lt _ (by norm_num)) (by norm_num))

/-- Disjoint bitwise-or is addition: when `a` is a multiple of `2^i` and
`b` lies below `2^i`, `a ||| b = a + b`. -/
theorem or_add_disjoint {a b i : Nat} (ha : 2^i ∣ a) (hb : b < 2^i) :
    a ||| b = a + b := by
  obtain ⟨k, rfl⟩ := ha
  exact (Nat.mul_add_lt_is_or hb k).symm

/-- C5: for every 128-bit value `v`, the five accessors of
`UnverifiedUuidV7(v)` return exactly the declared bit ranges:
`unix_ts_ms` is bits 80–127, `version` bits 76–79, `rand_a` bits 64–75,
`variant` bits 62–63 and `rand_b` bits 0–61, each read as an unsigned
integer.  Each accessor is a total function and performs no
validation. -/
theorem accessors_extract_bit_ranges (v : Nat) (h : v < 2^128) :
    (UnverifiedUuidV7.mk v).unix_ts_ms = v / 2^80 ∧
    (UnverifiedUuidV7.mk v).version = v / 2^76 % 2^4 ∧
    (UnverifiedUuidV7.mk v).rand_a = v / 2^64 % 2^12 ∧
    (UnverifiedUuidV7.mk v).variant = v / 2^62 % 2^2 ∧
    (UnverifiedUuidV7.mk v).rand_b = v % 2^62 :=
  ⟨unv_unix_ts_ms_eq v h, unv_version_eq v, unv_rand_a_eq v,
   unv_variant_eq v, unv_rand_b_eq v⟩

/-- Witness for C5 at the concrete value `0x018E2C1A2B7C39D2E5F6071829AB4DEF`. -/
theorem accessors_extract_bit_ranges_witness :
    0x018E2C1A2B7C39D2E5F6071829AB4DEF < 2^128 ∧
    ((UnverifiedUuidV7.mk 0x018E2C1A2B7C39D2E5F6071829AB4DEF).unix_ts_ms
        = 0x018E2C1A2B7C39D2E5F6071829AB4DEF / 2^80 ∧
      (UnverifiedUuidV7.mk 0x018E2C1A2B7C39D2E5F6071829AB4DEF).version
        = 0x018E2C1A2B7C39D2E5F6071829AB4DEF / 2^76 % 2^4 ∧
      (UnverifiedUuidV7.mk 0x018E2C1A2B7C39D2E5F6071829AB4DEF).rand_a
        = 0x018E2C1A2B7C39D2E5F6071829AB4DEF / 2^64 % 2^12 ∧
      (UnverifiedUuidV7.mk 0x018E2C1A2B7C39D2E5F6071829AB4DEF).variant
        = 0x018E2C1A2B7C39D2E5F6071829AB4DEF / 2^62 % 2^2 ∧
      (UnverifiedUuidV7.mk 0x018E2C1A2B7C39D2E5F6071829AB4DEF).rand_b
        = 0x018E2C1A2B7C39D2E5F6071829AB4DEF % 2^62) :=
  ⟨by decide, accessors_extract_bit_ranges _ (by decide)⟩

/-- C9: for every 128-bit value `v`, the accessors of
`UnverifiedUuidV7(v)` are strictly bounded by their declared field
widths: `unix_ts_ms < 2^48`, `version < 2^4`, `rand_a < 2^12`,
`variant < 2^2`, `rand_b < 2^62`. -/
theorem accessors_bounded_by_field_widths (v : Nat) (h : v < 2^128) :
    (UnverifiedUuidV7.mk v).unix_ts_ms < 2^48 ∧
    (UnverifiedUuidV7.mk v).version < 2^4 ∧
    (UnverifiedUuidV7.mk v).rand_a < 2^12 ∧
    (UnverifiedUuidV7.mk v).variant < 2^2 ∧
    (UnverifiedUuidV7.mk v).rand_b < 2^62 := by
  refine ⟨?_, ?_, ?_, ?_, ?_⟩
  · rw [unv_unix_ts_ms_eq v h]
    exact Nat.div_lt_of_lt_mul (lt_of_lt_of_le h (by norm_num))
  · rw [unv_version_eq v]; exact Nat.mod_lt _ (by norm_num)
  · rw [unv_rand_a_eq v]; exact Nat.mod_lt _ (by norm_num)
  · rw [unv_variant_eq v]; exact Nat.mod_lt _ (by norm_num)
  · rw [unv_rand_b_eq v]; exact Nat.mod_lt _ (by norm_num)

/-- Witness for C9 at the concrete value `0x018E2C1A2B7C39D2E5F6071829AB4DEF`. -/
theorem accessors_bounded_by_field_widths_witness :
    0x018E2C1A2B7C39D2E5F6071829AB4DEF < 2^128 ∧
    ((UnverifiedUuidV7.mk 0x018E2C1A2B7C39D2E5F6071829AB4DEF).unix_ts_ms < 2^48 ∧
      (UnverifiedUuidV7.mk 0x018E2C1A2B7C39D2E5F6071829AB4DEF).version < 2^4 ∧
      (UnverifiedUuidV7.mk 0x018E2C1A2B7C39D2E5F6071829AB4DEF).rand_a < 2^12 ∧
      (UnverifiedUuidV7.mk 0x018E2C1A2B7C39D2E5F6071829AB4DEF).variant < 2^2 ∧
      (UnverifiedUuidV7.mk 0x018E2C1A2B7C39D2E5F6071829AB4DEF).rand_b < 2^62) :=
  ⟨by decide, accessors_bounded_by_field_widths _ (by decide)⟩

/-- C3: for every 128-bit value `v`, validation of `UnverifiedUuidV7(v)`
succeeds iff bits 76–79 equal `0b0111` and bits 62–63 equal `0b10`; on
failure it returns `InvalidVersion` with the actual version field
whenever the version differs from 7 (even if the variant is also wrong),
and otherwise `InvalidVariant` with the actual variant field; on success
the wrapped value is returned unchanged by `as_u128`. -/
theorem validator_correct (v : Nat) (h : v < 2^128) :
    ((∃ ok, UuidV7.tryFromUnverified (UnverifiedUuidV7.mk v) = .ok ok) ↔
      (v / 2^76 % 2^4 = 7 ∧ v / 2^62 % 2^2 = 2)) ∧
    (v / 2^76 % 2^4 ≠ 7 →
      UuidV7.tryFromUnverified (UnverifiedUuidV7.mk v)
        = .error (.InvalidVersion (v / 2^76 % 2^4))) ∧
    (v / 2^76 % 2^4 = 7 → v / 2^62 % 2^2 ≠ 2 →
      UuidV7.tryFromUnverified (UnverifiedUuidV7.mk v)
        = .error (.InvalidVariant (v / 2^62 % 2^2))) ∧
    (∀ ok, UuidV7.tryFromUnverified (UnverifiedUuidV7.mk v) = .ok ok →
      ok.as_u128 = v) := by
  have hver := unv_version_eq v
  have hvar := unv_variant_eq v
  simp only [UuidV7.tryFromUnverified, hver, hvar]
  generalize v / 2^76 % 2^4 = a
  generalize v / 2^62 % 2^2 = b
  by_cases h7 : a = 7 <;> by_cases h2 : b = 2 <;>
    simp [h7, h2, UuidV7.as_u128]

/-- Witness for C3 at the concrete value `0x018E2C1A2B7C39D2E5F6071829AB4DEF`
(a value whose version nibble is 7 and variant bits are 2). -/
theorem validator_correct_witness :
    0x018E2C1A2B7C39D2E5F6071829AB4DEF < 2^128 ∧
    (((∃ ok, UuidV7.tryFromUnverified
            (UnverifiedUuidV7.mk 0x018E2C1A2B7C39D2E5F6071829AB4DEF) = .ok ok) ↔
        (0x018E2C1A2B7C39D2E5F6071829AB4DEF / 2^76 % 2^4 = 7 ∧
          0x018E2C1A2B7C39D2E5F6071829AB4DEF / 2^62 % 2^2 = 2)) ∧
      (0x018E2C1A2B7C39D2E5F6071829AB4DEF / 2^76 % 2^4 ≠ 7 →
        UuidV7.tryFromUnverified
            (UnverifiedUuidV7.mk 0x018E2C1A2B7C39D2E5F6071829AB4DEF)
          = .error (.InvalidVersion
              (0x018E2C1A2B7C39D2E5F6071829AB4DEF / 2^76 % 2^4))) ∧
      (0x018E2C1A2B7C39D2E5F6071829AB4DEF / 2^76 % 2^4 = 7 →
        0x018E2C1A2B7C39D2E5F6071829AB4DEF / 2^62 % 2^2 ≠ 2 →
        UuidV7.tryFromUnverified
            (UnverifiedUuidV7.mk 0x018E2C1A2B7C39D2E5F6071829AB4DEF)
          = .error (.InvalidVariant
              (0x018E2C1A2B7C39D2E5F6071829AB4DEF / 2^62 % 2^2))) ∧
      (∀ ok, UuidV7.tryFromUnverified
            (UnverifiedUuidV7.mk 0x018E2C1A2B7C39D2E5F6071829AB4DEF) = .ok ok →
        ok.as_u128 = 0x018E2C1A2B7C39D2E5F6071829AB4DEF)) :=
  ⟨by decide, validator_correct _ (by decide)⟩

/-- Reassembly of a `RawUuidV7` record into a 128-bit value by placing
each field at its declared bit offset. -/
def RawUuidV7.reassemble (r : RawUuidV7) : Nat :=
  (r.unix_ts_ms <<< 80) ||| (r.version <<< 76) ||| (r.rand_a <<< 64) |||
    (r.variant <<< 62) ||| r.rand_b

/-- Shifted fields at offsets 80/76/64/62/0 with in-range values combine
by `|||` exactly as by addition. -/
theorem orChain (A B C D E : Nat) (hB : B < 2^4) (hC : C < 2^12)
    (hD : D < 2^2) (hE : E < 2^62) :
    (A <<< 80) ||| (B <<< 76) ||| (C <<< 64) ||| (D <<< 62) ||| E
      = A * 2^80 + B * 2^76 + C * 2^64 + D * 2^62 + E := by
  rw [Nat.shiftLeft_eq, Nat.shiftLeft_eq, Nat.shiftLeft_eq, Nat.shiftLeft_eq]
  have h1 : A * 2^80 ||| B * 2^76 = A * 2^80 + B * 2^76 :=
    or_add_disjoint (i := 80) ⟨A, by ring⟩ (by nlinarith)
  have h2 : (A * 2^80 + B * 2^76) ||| C * 2^64
      = A * 2^80 + B * 2^76 + C * 2^64 :=
    or_add_disjoint (i := 76) ⟨2^4 * A + B, by ring⟩ (by nlinarith)
  have h3 : (A * 2^80 + B * 2^76 + C * 2^64) ||| D * 2^62
      = A * 2^80 + B * 2^76 + C * 2^64 + D * 2^62 :=
    or_add_disjoint (i := 64) ⟨2^16 * A + 2^12 * B + C, by ring⟩ (by nlinarith)
  have h4 : (A * 2^80 + B * 2^76 + C * 2^64 + D * 2^62) ||| E
      = A * 2^80 + B * 2^76 + C * 2^64 + D * 2^62 + E :=
    or_add_disjoint (i := 62) ⟨2^18 * A + 2^14 * B + 2^2 * C + D, by ring⟩ hE
  rw [h1, h2, h3, h4]

/-- C10: unpacking is lossless: for every 128-bit value `v`, the five
fields of the `RawUuidV7` record obtained from `UnverifiedUuidV7(v)`
reconstruct `v` exactly via
`(unix_ts_ms << 80) | (version << 76) | (rand_a << 64) | (variant << 62) | rand_b`. -/
theorem unpack_lossless (v : Nat) (h : v < 2^128) :
    (RawUuidV7.fromUnverified (UnverifiedUuidV7.mk v)).reassemble = v := by
  unfold RawUuidV7.reassemble RawUuidV7.fromUnverified
  simp only
  rw [unv_unix_ts_ms_eq v h, unv_version_eq v, unv_rand_a_eq v,
    unv_variant_eq v, unv_rand_b_eq v]
  rw [orChain _ _ _ _ _ (Nat.mod_lt _ (by norm_num)) (Nat.mod_lt _ (by norm_num))
    (Nat.mod_lt _ (by norm_num)) (Nat.mod_lt _ (by norm_num))]
  have d1 : v % 2^80 / 2^76 = v / 2^76 % 2^4 := by
    rw [show (2:Nat)^80 = 2^76 * 2^4 from by norm_num]
    exact Nat.mod_mul_right_div_self v (2^76) (2^4)
  have d2 : v % 2^76 / 2^64 = v / 2^64 % 2^12 := by
    rw [show (2:Nat)^76 = 2^64 * 2^12 from by norm_num]
    exact Nat.mod_mul_right_div_self v (2^64) (2^12)
  have d3 : v % 2^64 / 2^62 = v / 2^62 % 2^2 := by
    rw [show (2:Nat)^64 = 2^62 * 2^2 from by norm_num]
    exact Nat.mod_mul_right_div_self v (2^62) (2^2)
  have e1 : 2^80 * (v / 2^80) + v % 2^80 = v := Nat.div_add_mod v (2^80)
  have e2 : 2^76 * (v % 2^80 / 2^76) + v % 2^80 % 2^76 = v % 2^80 :=
    Nat.div_add_mod (v % 2^80) (2^76)
  have e3 : 2^64 * (v % 2^76 / 2^64) + v % 2^76 % 2^64 = v % 2^76 :=
    Nat.div_add_mod (v % 2^76) (2^64)
  have e4 : 2^62 * (v % 2^64 / 2^62) + v % 2^64 % 2^62 = v % 2^64 :=
    Nat.div_add_mod (v % 2^64) (2^62)
  have m1 : v % 2^80 % 2^76 = v % 2^76 :=
    Nat.mod_mod_of_dvd v (by norm_num)
  have m2 : v % 2^76 % 2^64 = v % 2^64 :=
    Nat.mod_mod_of_dvd v (by norm_num)
  have m3 : v % 2^64 % 2^62 = v % 2^62 :=
    Nat.mod_mod_of_dvd v (by norm_num)
  rw [d1, m1] at e2
  rw [d2, m2] at e3
  rw [d3, m3] at e4
  linarith

/-- Witness for C10 at `0x018E2C1A2B7C39D2E5F6071829AB4DEF`. -/
theorem unpack_lossless_witness :
    0x018E2C1A2B7C39D2E5F6071829AB4DEF < 2^128 ∧
    (RawUuidV7.fromUnverified
        (UnverifiedUuidV7.mk 0x018E2C1A2B7C39D2E5F6071829AB4DEF)).reassemble
      = 0x018E2C1A2B7C39D2E5F6071829AB4DEF :=
  ⟨by decide, unpack_lossless _ (by decide)⟩

/-- C6: for every `UuidV7Seeds` whose timestamp is 48 bits or wider,
`to_u128` raises no error (it is total) and produces the same 128-bit
value as it would for the timestamp reduced modulo `2^48`: the overflow
bits above bit 47 are discarded by the wrapping left shift into the
128-bit container. -/
theorem pack_truncates_wide_timestamp (s : UuidV7Seeds)
    (h : 2^48 ≤ s.unix_ts_ms) :
    s.to_u128 = UuidV7Seeds.to_u128 ⟨s.unix_ts_ms % 2^48, s.random_bytes⟩ := by
  have key : ((s.unix_ts_ms % 2^64) <<< 80) % 2^128
      = ((s.unix_ts_ms % 2^48 % 2^64) <<< 80) % 2^128 := by
    rw [Nat.shiftLeft_eq, Nat.shiftLeft_eq,
      show (2:Nat)^128 = 2^48 * 2^80 from by norm_num,
      Nat.mul_mod_mul_right, Nat.mul_mod_mul_right]
    have l1 : s.unix_ts_ms % 2^64 % 2^48 = s.unix_ts_ms % 2^48 :=
      Nat.mod_mod_of_dvd _ (by norm_num)
    have l2 : s.unix_ts_ms % 2^48 % 2^64 = s.unix_ts_ms % 2^48 :=
      Nat.mod_eq_of_lt
        (lt_of_lt_of_le (Nat.mod_lt _ (by norm_num)) (by norm_num))
    have l3 : s.unix_ts_ms % 2^48 % 2^48 = s.unix_ts_ms % 2^48 :=
      Nat.mod_mod_of_dvd _ dvd_rfl
    rw [l1, l2, l3]
  unfold UuidV7Seeds.to_u128
  simp only [key]

/-- Witness for C6 at timestamp `2^48` (49 bits) with seed 5. -/
theorem pack_truncates_wide_timestamp_witness :
    2^48 ≤ (2:Nat)^48 ∧
    UuidV7Seeds.to_u128 ⟨2^48, 5⟩
      = UuidV7Seeds.to_u128 ⟨2^48 % 2^48, 5⟩ :=
  ⟨le_refl _, pack_truncates_wide_timestamp ⟨2^48, 5⟩ (le_refl _)⟩

/-- C4: for every `RawUuidV7` record, the conversion to `RawUuidV7Asn1`
succeeds: the bit-string constructor's error branch is unreachable since
the buffers have fixed nonempty lengths (2, 1, 8 bytes) and the
unused-bit counts are the fixed constants 4, 6 and 2, all below 8. -/
theorem projection_always_succeeds (r : RawUuidV7) :
    (RawUuidV7Asn1.tryFromRaw r).isSome = true := by
  simp [RawUuidV7Asn1.tryFromRaw, BitString.new,
    u16_to_be_bytes, u8_to_be_bytes, u64_to_be_bytes]

/-- C7: for every `RawUuidV7Asn1` value, DER serialization emits the
SEQUENCE body as the concatenation of the encoded fields in the fixed
order `unix_ts_ms`, `version`, `rand_a`, `variant`, `rand_b`. -/
theorem der_fields_in_fixed_order (a : RawUuidV7Asn1) :
    a.to_der_bytes
      = 0x30 ::
        (encLen (encUint a.unix_ts_ms ++ encUint a.version ++
            encBitString a.rand_a ++ encBitString a.variant ++
            encBitString a.rand_b).length ++
          (encUint a.unix_ts_ms ++ encUint a.version ++
            encBitString a.rand_a ++ encBitString a.variant ++
            encBitString a.rand_b)) := by
  simp [RawUuidV7Asn1.to_der_bytes, encSequence, List.append_assoc]

/-- C8: projection and serialization are pure: serializing equal raw
field records yields byte-identical DER output, with no dependence on
time, randomness or environment. -/
theorem projection_deterministic (r1 r2 : RawUuidV7) (h : r1 = r2) :
    derOfRaw r1 = derOfRaw r2 := by
  rw [h]

/-- Witness for C8 at a concrete record. -/
theorem projection_deterministic_witness :
    (⟨1, 7, 2, 3, 2⟩ : RawUuidV7) = ⟨1, 7, 2, 3, 2⟩ ∧
    derOfRaw ⟨1, 7, 2, 3, 2⟩ = derOfRaw ⟨1, 7, 2, 3, 2⟩ :=
  ⟨rfl, projection_deterministic ⟨1, 7, 2, 3, 2⟩ ⟨1, 7, 2, 3, 2⟩ rfl⟩

/-- C1 (counterexample evaluation): for the record with `rand_a = 1`,
`variant = 2`, `rand_b = 1`, the produced bit strings do declare 12, 2
and 62 significant bits — but those significant bits decode to 0, 0 and
0 instead of the field values 1, 2 and 1, and the declared-unused
trailing padding bits hold 1, 2 and 1 instead of zero: the conversion
stores each value right-aligned in its buffer without shifting it left
past the unused bits. -/
theorem bitstring_fields_not_left_aligned :
    (RawUuidV7Asn1.tryFromRaw ⟨0, 7, 1, 1, 2⟩).map
        (fun a =>
          (a.rand_a.bit_length, a.rand_a.valueBits, a.rand_a.paddingBits,
           a.variant.bit_length, a.variant.valueBits, a.variant.paddingBits,
           a.rand_b.bit_length, a.rand_b.valueBits, a.rand_b.paddingBits))
      = some (12, 0, 1, 2, 0, 2, 62, 0, 1) := by
  rfl

/-- C2 (counterexample evaluation): packing timestamp `T = 0` with seed
`R = 2^80` yields a value whose unpacked `unix_ts_ms` is 1, not `T`: the
clearing mask `0x0000_FFFF_FFFF_FFFF_FFFF_FFFF_FFFF_FFFF` zeroes only
the top 16 bits of the seed, so the seed's bits 80–111 survive and are
ORed into the timestamp field. -/
theorem pack_timestamp_mask_too_narrow :
    (UnverifiedUuidV7.mk (UuidV7Seeds.to_u128 ⟨0, 2^80⟩)).unix_ts_ms = 1 := by
  decide
